import Mathlib

/-!
# Inventory reporting of the osconfig agent

A shallow embedding of `cli_tools/osconfig_agent/inventory.go`:
`postAttributeCompressed`, `writeInventory`, `getInventory` and `runInventory`.

Go strings, byte buffers and reader contents are Lean `String`s.  Everything the
file calls but does not define is a parameter: the attribute transport, the
clock, the JSON, gzip and base64 encoders, the escaping done by the `%q` verb,
the collectors, and the type `packages.Packages`.  The logging calls
(`logInfof`, `logDebugf`, `logErrorf`) touch neither the snapshot nor the
transport and are left out.
-/

namespace OsconfigAgent

/-! ## The outside world -/

/-- One call of the attribute-store write primitive: the target path and the
byte content read from the body. -/
structure Post where
  target : String
  content : String
deriving DecidableEq, Repr

/-- A filtering writer in the style of `base64.NewEncoder` or `gzip.NewWriter`:
an `io.WriteCloser` stacked on another writer.  `write` and `close` either fail
with an error message or give the bytes they pass to the writer below (`write`
also gives the successor state). -/
structure Filter where
  σ : Type
  init : σ
  write : σ → String → Except String (σ × String)
  close : σ → Except String String

/-- What `inventory.go` takes from outside, for snapshots whose composite fields
have type `P` (`packages.Packages`).
* `transport hist p`: the error, if any, with which the attribute store answers
  the write `p` after the earlier writes `hist`;
* `now`: `time.Now().UTC().Format(time.RFC3339)` at the one place it is read;
* `jsonEncode v`: the text `json.Encoder.Encode` writes for `v`, or its error;
* `gzip`, `base64`: the writers made by `gzip.NewWriter` and
  `base64.NewEncoder(base64.StdEncoding, _)`;
* `escape s`: the escaped body `strconv.Quote` puts between the double quotes. -/
structure Env (P : Type) where
  transport : List Post → Post → Option String
  now : String
  jsonEncode : P → Except String String
  gzip : Filter
  base64 : Filter
  escape : String → String

/-- Modelled from the spec: postAttribute, the attribute-store write primitive,
is defined outside `inventory.go`.  It accepts a target path and a byte stream,
performs the write and fails with a transport error on failure.  The write is
appended to the trace of writes; the answer is the error, if any. -/
def postAttribute {P : Type} (env : Env P) (url : String) (body : String)
    (w : List Post) : List Post × Option String :=
  (w ++ [⟨url, body⟩], env.transport w ⟨url, body⟩)

/-! ## The snapshot (`inventory.go`, lines 40-50) -/

/-- The struct `instanceInventory`, fields in declared order. -/
structure instanceInventory (P : Type) where
  Hostname : String
  LongName : String
  ShortName : String
  Version : String
  Architecture : String
  KernelVersion : String
  InstalledPackages : P
  PackageUpdates : P
  Errors : List String

/-- A field value as `reflect` shows it, by kind: `reflect.String`,
`reflect.Struct` (`packages.Packages` is a struct type) and `reflect.Slice`. -/
inductive Value (P : Type) where
  | str (s : String)
  | struct (v : P)
  | slice (xs : List String)

/-- The value of `e.NumField()` for `instanceInventory`. -/
def NumField : Nat := 9

/-- The value of `t.Field(i).Name`. -/
def FieldName : Nat → Option String
  | 0 => some "Hostname"
  | 1 => some "LongName"
  | 2 => some "ShortName"
  | 3 => some "Version"
  | 4 => some "Architecture"
  | 5 => some "KernelVersion"
  | 6 => some "InstalledPackages"
  | 7 => some "PackageUpdates"
  | 8 => some "Errors"
  | _ => none

/-- The value of `e.Field(i)`, read from the snapshot as it is when the loop
reaches `i`. -/
def Field {P : Type} (e : instanceInventory P) : Nat → Option (Value P)
  | 0 => some (.str e.Hostname)
  | 1 => some (.str e.LongName)
  | 2 => some (.str e.ShortName)
  | 3 => some (.str e.Version)
  | 4 => some (.str e.Architecture)
  | 5 => some (.str e.KernelVersion)
  | 6 => some (.struct e.InstalledPackages)
  | 7 => some (.struct e.PackageUpdates)
  | 8 => some (.slice e.Errors)
  | _ => none

/-! ## `postAttributeCompressed` (lines 52-69) -/

/-- The call `b.Write(p)`: the base64 encoder `b` writes into the buffer `buf`
(a `bytes.Buffer`, whose `Write` never fails). -/
def bWrite {P : Type} (env : Env P) (s : env.base64.σ × String) (p : String) :
    Except String (env.base64.σ × String) :=
  match env.base64.write s.1 p with
  | .error e => .error e
  | .ok (b, out) => .ok (b, s.2 ++ out)

/-- The call `b.Close()`; the result is the final content of `buf`. -/
def bClose {P : Type} (env : Env P) (s : env.base64.σ × String) : Except String String :=
  match env.base64.close s.1 with
  | .error e => .error e
  | .ok out => .ok (s.2 ++ out)

/-- The call `zw.Write(p)`: the gzip writer `zw` writes into `b`. -/
def zwWrite {P : Type} (env : Env P) (s : env.gzip.σ × env.base64.σ × String) (p : String) :
    Except String (env.gzip.σ × env.base64.σ × String) :=
  match env.gzip.write s.1 p with
  | .error e => .error e
  | .ok (zw, out) =>
    match bWrite env s.2 out with
    | .error e => .error e
    | .ok bs => .ok (zw, bs)

/-- The call `zw.Close()`: flushes the gzip writer into `b`; `b` stays open. -/
def zwClose {P : Type} (env : Env P) (s : env.gzip.σ × env.base64.σ × String) :
    Except String (env.base64.σ × String) :=
  match env.gzip.close s.1 with
  | .error e => .error e
  | .ok out => bWrite env s.2 out

/-- The call `w.Encode(body)`: the JSON text of `body` is written to `zw`; it
fails when the marshalling fails or when the write fails. -/
def Encode {P : Type} (env : Env P) (s : env.gzip.σ × env.base64.σ × String) (body : P) :
    Except String (env.gzip.σ × env.base64.σ × String) :=
  match env.jsonEncode body with
  | .error e => .error e
  | .ok js => zwWrite env s js

/-- Lines 53-66 of `postAttributeCompressed`: the content of `buf` after
`w.Encode(body)`, `zw.Close()` and `b.Close()`, or the first error. -/
def encodeCompressed {P : Type} (env : Env P) (body : P) : Except String String :=
  let buf : String := ""
  let b := env.base64.init
  let zw := env.gzip.init
  match Encode env (zw, b, buf) body with
  | .error e => .error e
  | .ok s1 =>
    match zwClose env s1 with
    | .error e => .error e
    | .ok s2 => bClose env s2

/-- The function `postAttributeCompressed`: an encoding error is returned before
any write; otherwise the buffer goes to `postAttribute` (line 68). -/
def postAttributeCompressed {P : Type} (env : Env P) (url : String) (body : P)
    (w : List Post) : List Post × Option String :=
  match encodeCompressed env body with
  | .error e => (w, some e)
  | .ok buf => postAttribute env url buf w

/-! ## `writeInventory` (lines 71-101) -/

/-- The statement `state.Errors = append(state.Errors, err.Error())` under
`if err != nil`. -/
def recordError {P : Type} (state : instanceInventory P) (err : Option String) :
    instanceInventory P :=
  match err with
  | some e => { state with Errors := state.Errors ++ [e] }
  | none => state

/-- The text `strconv.Quote(s)`: the escaped body between double quotes. -/
def Quote {P : Type} (env : Env P) (s : String) : String :=
  "\"" ++ env.escape s ++ "\""

/-- The text `fmt.Sprintf("%q", xs)` for a slice of strings: `[`, the quoted
elements with one space between neighbours, `]`. -/
def SprintfQ {P : Type} (env : Env P) (xs : List String) : String :=
  "[" ++ " ".intercalate (xs.map (Quote env)) ++ "]"

/-- The body of the loop of lines 81-97 for index `i`. -/
def walkField {P : Type} (env : Env P) (url : String)
    (sw : instanceInventory P × List Post) (i : Nat) : instanceInventory P × List Post :=
  match Field sw.1 i, FieldName i with
  | some f, some name =>
    let u := url ++ "/" ++ name
    match f with
    | .str s =>
      let r := postAttribute env u s sw.2
      (recordError sw.1 r.2, r.1)
    | .struct v =>
      let r := postAttributeCompressed env u v sw.2
      (recordError sw.1 r.2, r.1)
    | .slice _ => sw
  | _, _ => sw

/-- The function `writeInventory`: the snapshot and the trace of writes after
the call. -/
def writeInventory {P : Type} (env : Env P) (state : instanceInventory P) (url : String)
    (w : List Post) : instanceInventory P × List Post :=
  let r := postAttribute env (url ++ "/Timestamp") env.now w
  let sw := (List.range NumField).foldl (walkField env url) (recordError state r.2, r.1)
  let r := postAttribute env (url ++ "/Errors") (SprintfQ env sw.1.Errors) sw.2
  (sw.1, r.1)

/-! ## `getInventory` (lines 103-138) -/

/-- The fields of `osinfo.DistributionInfo` that `getInventory` reads. -/
structure DistributionInfo where
  LongName : String
  ShortName : String
  Version : String
  Kernel : String
  Architecture : String

/-- What the four collectors return in one cycle: a value together with the
error (or the error strings).  Distro detection is taken to return a record with
every answer, also next to an error. -/
structure Collectors (P : Type) where
  Hostname : String × Option String
  GetDistributionInfo : DistributionInfo × Option String
  GetInstalledPackages : P × List String
  GetPackageUpdates : P × List String

/-- The function `getInventory`, statement by statement. -/
def getInventory {P : Type} [Inhabited P] (c : Collectors P) : instanceInventory P :=
  let hs : instanceInventory P := ⟨"", "", "", "", "", "", default, default, []⟩
  let hn := c.Hostname.1
  let hs := match c.Hostname.2 with
    | some e => { hs with Errors := hs.Errors ++ [e] }
    | none => hs
  let hs := { hs with Hostname := hn }
  let di := c.GetDistributionInfo.1
  let hs := match c.GetDistributionInfo.2 with
    | some e => { hs with Errors := hs.Errors ++ [e] }
    | none => hs
  let hs := { hs with LongName := di.LongName }
  let hs := { hs with ShortName := di.ShortName }
  let hs := { hs with Version := di.Version }
  let hs := { hs with KernelVersion := di.Kernel }
  let hs := { hs with Architecture := di.Architecture }
  let errs := c.GetInstalledPackages.2
  let hs := { hs with InstalledPackages := c.GetInstalledPackages.1 }
  let hs := if errs.length ≠ 0 then { hs with Errors := hs.Errors ++ errs } else hs
  let errs := c.GetPackageUpdates.2
  let hs := { hs with PackageUpdates := c.GetPackageUpdates.1 }
  let hs := if errs.length ≠ 0 then { hs with Errors := hs.Errors ++ errs } else hs
  hs

/-- The function `runInventory`, with `inventoryURL` as a parameter. -/
def runInventory {P : Type} [Inhabited P] (env : Env P) (c : Collectors P)
    (inventoryURL : String) (w : List Post) : instanceInventory P × List Post :=
  writeInventory env (getInventory c) inventoryURL w

/-! ## Specification-side definitions -/

/-- The writes one call of `postAttributeCompressed` adds to the trace: one when
the encoding succeeds, none when it fails. -/
def compressedPosts {P : Type} (env : Env P) (url : String) (v : P) : List Post :=
  match encodeCompressed env v with
  | .ok buf => [⟨url, buf⟩]
  | .error _ => []

/-- A publish attempt as the spec lists them: a direct text write of a scalar,
or the write of a composite value through the encoding pipeline. -/
inductive Attempt (P : Type) where
  | text (target : String) (content : String)
  | composite (target : String) (value : P)

/-- The attempts of one cycle in the spec's order: `Timestamp`, then every schema
field that is scalar or composite, in declared order. -/
def specAttempts {P : Type} (env : Env P) (st : instanceInventory P) (url : String) :
    List (Attempt P) :=
  [.text (url ++ "/Timestamp") env.now,
   .text (url ++ "/Hostname") st.Hostname,
   .text (url ++ "/LongName") st.LongName,
   .text (url ++ "/ShortName") st.ShortName,
   .text (url ++ "/Version") st.Version,
   .text (url ++ "/Architecture") st.Architecture,
   .text (url ++ "/KernelVersion") st.KernelVersion,
   .composite (url ++ "/InstalledPackages") st.InstalledPackages,
   .composite (url ++ "/PackageUpdates") st.PackageUpdates]

/-- One attempt: the trace after it and its error, if it failed. -/
def Attempt.run {P : Type} (env : Env P) : Attempt P → List Post → List Post × Option String
  | .text u c, w => postAttribute env u c w
  | .composite u v, w => postAttributeCompressed env u v w

/-- Every attempt is made, one after the other, whatever the earlier ones
answered: the messages of the failed ones in order, and the trace at the end. -/
def specFailures {P : Type} (env : Env P) :
    List (Attempt P) → List Post → List String × List Post
  | [], w => ([], w)
  | a :: as, w =>
    let r := a.run env w
    let rest := specFailures env as r.1
    (r.2.toList ++ rest.1, rest.2)

/-- All the bytes a filter passes below while the chunks are written to it one
after the other from state `s`, with the state reached; or the first error. -/
def Filter.feed (F : Filter) : F.σ → List String → Except String (F.σ × String)
  | s, [] => .ok (s, "")
  | s, c :: cs =>
    match F.write s c with
    | .error e => .error e
    | .ok (s1, out) =>
      match F.feed s1 cs with
      | .error e => .error e
      | .ok (s2, outs) => .ok (s2, out ++ outs)

/-- The whole output of a fresh filter that is written the chunks and closed. -/
def Filter.finish (F : Filter) (chunks : List String) : Except String String :=
  match F.feed F.init chunks with
  | .error e => .error e
  | .ok (s, out) =>
    match F.close s with
    | .error e => .error e
    | .ok last => .ok (out ++ last)

/-- The filter is a streaming form of the one-shot encoding `enc`: written any
chunks and closed without error, it has passed below `enc` of their
concatenation. -/
def Filter.Implements (F : Filter) (enc : String → String) : Prop :=
  ∀ chunks out, F.finish chunks = .ok out → out = enc (chunks.foldr (· ++ ·) "")

/-- The three ways the pipeline of `postAttributeCompressed` fails with `e` on
`v`: `w.Encode(body)`, `zw.Close()` or `b.Close()` returns `e`. -/
def PipelineFails {P : Type} (env : Env P) (v : P) (e : String) : Prop :=
  Encode env (env.gzip.init, env.base64.init, "") v = .error e
  ∨ (∃ s1, Encode env (env.gzip.init, env.base64.init, "") v = .ok s1
      ∧ zwClose env s1 = .error e)
  ∨ (∃ s1 s2, Encode env (env.gzip.init, env.base64.init, "") v = .ok s1
      ∧ zwClose env s1 = .ok s2 ∧ bClose env s2 = .error e)

/-! ## Sample inputs -/

/-- A transport that fails with `m` on every write to `target` and on no other. -/
def failFor (target m : String) : List Post → Post → Option String :=
  fun _ p => if p.target = target then some m else none

/-- A transport that never fails. -/
def healthy : List Post → Post → Option String :=
  fun _ _ => none

/-- A toy compressor: it keeps what it is written and emits `gz(...)` on close. -/
def sampleGzip : Filter where
  σ := String
  init := ""
  write := fun s p => .ok (s ++ p, "")
  close := fun s => .ok ("gz(" ++ s ++ ")")

/-- A toy text encoder: it passes what it is written and pads with `=` on close. -/
def sampleBase64 : Filter where
  σ := Unit
  init := ()
  write := fun _ p => .ok ((), p)
  close := fun _ => .ok "="

/-- A sample environment over string-valued composite fields; the JSON encoder
rejects the value `NaN`. -/
def sampleEnv (transport : List Post → Post → Option String) : Env String where
  transport := transport
  now := "2018-06-01T12:00:00Z"
  jsonEncode := fun v =>
    if v = "NaN" then .error "json: unsupported value: NaN" else .ok (v ++ "\n")
  gzip := sampleGzip
  base64 := sampleBase64
  escape := id

/-- A sample snapshot with no build-phase error. -/
def sampleState : instanceInventory String :=
  ⟨"host-1", "Debian GNU/Linux 9 (stretch)", "debian", "9", "x86_64", "4.9.0-6-amd64",
   "bash 4.4", "curl 7.52", []⟩

/-- A sample snapshot whose installed packages the sample JSON encoder rejects. -/
def sampleStateNaN : instanceInventory String :=
  { sampleState with InstalledPackages := "NaN" }

/-- The one-shot form of the toy compressor. -/
def sampleGz (x : String) : String := "gz(" ++ x ++ ")"

/-- Strips the `gz(` and `)` of the toy compressor. -/
def sampleUngz (y : String) : Option String := some ⟨(y.data.drop 3).dropLast⟩

/-- The one-shot form of the toy text encoder. -/
def sampleB64 (x : String) : String := x ++ "="

/-- Strips the padding of the toy text encoder. -/
def sampleUnb64 (y : String) : Option String := some ⟨y.data.dropLast⟩

/-- Strips the newline the toy JSON encoder ends with. -/
def sampleJsonDecode (js : String) : Option String := some ⟨js.data.dropLast⟩

/-- Collectors of a cycle in which only the hostname lookup fails. -/
def sampleHostnameFails : Collectors String where
  Hostname := ("", some "permission denied")
  GetDistributionInfo :=
    (⟨"Debian GNU/Linux 9 (stretch)", "debian", "9", "4.9.0-6-amd64", "x86_64"⟩, none)
  GetInstalledPackages := ("bash 4.4", [])
  GetPackageUpdates := ("curl 7.52", [])

/-- Collectors of a cycle in which distro detection fails and returns what it
had found until then. -/
def sampleDistroFails : Collectors String where
  Hostname := ("host-1", none)
  GetDistributionInfo :=
    (⟨"Debian GNU/Linux 9 (stretch)", "debian", "9", "", ""⟩, some "uname: not permitted")
  GetInstalledPackages := ("bash 4.4", [])
  GetPackageUpdates := ("curl 7.52", [])

/-! ## Auxiliary lemmas -/

theorem recordError_eq {P : Type} (st : instanceInventory P) (err : Option String) :
    recordError st err = { st with Errors := st.Errors ++ err.toList } := by
  cases err <;> simp [recordError]

theorem range_NumField : List.range NumField = [0, 1, 2, 3, 4, 5, 6, 7, 8] := by
  decide

theorem path_join (url name : String) : url ++ "/" ++ name = url ++ ("/" ++ name) :=
  String.append_assoc _ _ _

theorem str_append_cancel {u a b : String} (h : u ++ a = u ++ b) : a = b := by
  have h2 := congrArg String.data h
  simp only [String.data_append] at h2
  exact String.ext (List.append_cancel_left h2)

theorem path_eq_iff (url a b : String) : url ++ a = url ++ b ↔ a = b :=
  ⟨str_append_cancel, fun h => by rw [h]⟩

theorem postAttribute_trace {P : Type} (env : Env P) (url body : String) (w : List Post) :
    (postAttribute env url body w).1 = w ++ [⟨url, body⟩] := rfl

theorem postAttributeCompressed_trace {P : Type} (env : Env P) (url : String) (v : P)
    (w : List Post) :
    (postAttributeCompressed env url v w).1 = w ++ compressedPosts env url v := by
  unfold postAttributeCompressed compressedPosts
  cases encodeCompressed env v <;> simp [postAttribute]

theorem mem_compressedPosts {P : Type} {env : Env P} {url : String} {v : P} {p : Post}
    (h : p ∈ compressedPosts env url v) : p.target = url := by
  unfold compressedPosts at h
  cases hv : encodeCompressed env v <;> simp [hv] at h
  simp [h]

/-- The loop of `writeInventory` unrolled: the calls it makes, one after the
other, and the snapshot and trace it ends with. -/
theorem writeInventory_eq {P : Type} (env : Env P) (st : instanceInventory P) (url : String)
    (w : List Post) :
    writeInventory env st url w =
      (let r0 := postAttribute env (url ++ "/Timestamp") env.now w
       let r1 := postAttribute env (url ++ "/Hostname") st.Hostname r0.1
       let r2 := postAttribute env (url ++ "/LongName") st.LongName r1.1
       let r3 := postAttribute env (url ++ "/ShortName") st.ShortName r2.1
       let r4 := postAttribute env (url ++ "/Version") st.Version r3.1
       let r5 := postAttribute env (url ++ "/Architecture") st.Architecture r4.1
       let r6 := postAttribute env (url ++ "/KernelVersion") st.KernelVersion r5.1
       let r7 := postAttributeCompressed env (url ++ "/InstalledPackages")
         st.InstalledPackages r6.1
       let r8 := postAttributeCompressed env (url ++ "/PackageUpdates") st.PackageUpdates r7.1
       let errs := st.Errors ++ (r0.2.toList ++ r1.2.toList ++ r2.2.toList ++ r3.2.toList
         ++ r4.2.toList ++ r5.2.toList ++ r6.2.toList ++ r7.2.toList ++ r8.2.toList)
       ({ st with Errors := errs },
        (postAttribute env (url ++ "/Errors") (SprintfQ env errs) r8.1).1)) := by
  simp only [writeInventory, range_NumField, List.foldl_cons, List.foldl_nil, walkField, Field,
    FieldName, recordError_eq, path_join]
  simp [List.append_assoc]

/-- The trace of writes of one call of `writeInventory`. -/
theorem writeInventory_trace {P : Type} (env : Env P) (st : instanceInventory P) (url : String)
    (w : List Post) :
    (writeInventory env st url w).2 = w ++
      ([⟨url ++ "/Timestamp", env.now⟩, ⟨url ++ "/Hostname", st.Hostname⟩,
        ⟨url ++ "/LongName", st.LongName⟩, ⟨url ++ "/ShortName", st.ShortName⟩,
        ⟨url ++ "/Version", st.Version⟩, ⟨url ++ "/Architecture", st.Architecture⟩,
        ⟨url ++ "/KernelVersion", st.KernelVersion⟩]
       ++ compressedPosts env (url ++ "/InstalledPackages") st.InstalledPackages
       ++ compressedPosts env (url ++ "/PackageUpdates") st.PackageUpdates
       ++ [⟨url ++ "/Errors", SprintfQ env (writeInventory env st url w).1.Errors⟩]) := by
  rw [writeInventory_eq]
  simp only [postAttribute_trace, postAttributeCompressed_trace]
  simp [List.append_assoc]

/-! ## The claims about `writeInventory` -/

/-- C1, as the claim states it, fails: when the JSON encoder rejects the
installed packages, `writeInventory` makes nine writes and none of them goes to
`base/InstalledPackages`. -/
theorem writeInventory_targets_counterexample :
    (writeInventory (sampleEnv healthy) sampleStateNaN "base" []).2.map Post.target
      = ["base/Timestamp", "base/Hostname", "base/LongName", "base/ShortName",
         "base/Version", "base/Architecture", "base/KernelVersion",
         "base/PackageUpdates", "base/Errors"]
    ∧ (writeInventory (sampleEnv healthy) sampleStateNaN "base" []).2.map Post.target
      ≠ ["base/Timestamp", "base/Hostname", "base/LongName", "base/ShortName",
         "base/Version", "base/Architecture", "base/KernelVersion",
         "base/InstalledPackages", "base/PackageUpdates", "base/Errors"] := by
  decide

/-- C1, amended: for every snapshot, base path and transport, the targets of the
writes of `writeInventory` are, in this order and each once, `base/Timestamp`,
the six scalar fields in declared order, `base/InstalledPackages` when the
encoding of that field succeeds, `base/PackageUpdates` when the encoding of that
field succeeds, and `base/Errors` last; the slice-kinded `Errors` field adds no
write during the walk. -/
theorem writeInventory_targets {P : Type} (env : Env P) (st : instanceInventory P)
    (url : String) (w : List Post) :
    (writeInventory env st url w).2.map Post.target = w.map Post.target ++
      ([url ++ "/Timestamp", url ++ "/Hostname", url ++ "/LongName", url ++ "/ShortName",
        url ++ "/Version", url ++ "/Architecture", url ++ "/KernelVersion"]
       ++ (if (encodeCompressed env st.InstalledPackages).toBool
            then [url ++ "/InstalledPackages"] else [])
       ++ (if (encodeCompressed env st.PackageUpdates).toBool
            then [url ++ "/PackageUpdates"] else [])
       ++ [url ++ "/Errors"]) := by
  rw [writeInventory_trace]
  unfold compressedPosts
  cases encodeCompressed env st.InstalledPackages <;>
    cases encodeCompressed env st.PackageUpdates <;> simp [Except.toBool]

/-- C2: the error log after `writeInventory` is the log before it followed by
the message of every failed attempt among the `Timestamp` write and the field
writes, in the order of the attempts; every attempt is made whatever the earlier
ones answered, and the final `Errors` write adds nothing.  When the only failure
of the cycle is the transport failing with `m` on `InstalledPackages`, the log
gains exactly `m` and all ten writes are made. -/
theorem writeInventory_errors {P : Type} (env : Env P) (st : instanceInventory P)
    (url : String) (w : List Post) :
    (writeInventory env st url w).1.Errors
        = st.Errors ++ (specFailures env (specAttempts env st url) w).1
    ∧ (writeInventory env st url w).2
        = (postAttribute env (url ++ "/Errors")
            (SprintfQ env (st.Errors ++ (specFailures env (specAttempts env st url) w).1))
            (specFailures env (specAttempts env st url) w).2).1
    ∧ ∀ m a b, encodeCompressed env st.InstalledPackages = .ok a →
        encodeCompressed env st.PackageUpdates = .ok b →
        (∀ h p, env.transport h p
          = if p.target = url ++ "/InstalledPackages" then some m else none) →
        (writeInventory env st url w).1.Errors = st.Errors ++ [m]
        ∧ (writeInventory env st url w).2 = w ++
            [⟨url ++ "/Timestamp", env.now⟩, ⟨url ++ "/Hostname", st.Hostname⟩,
             ⟨url ++ "/LongName", st.LongName⟩, ⟨url ++ "/ShortName", st.ShortName⟩,
             ⟨url ++ "/Version", st.Version⟩, ⟨url ++ "/Architecture", st.Architecture⟩,
             ⟨url ++ "/KernelVersion", st.KernelVersion⟩,
             ⟨url ++ "/InstalledPackages", a⟩, ⟨url ++ "/PackageUpdates", b⟩,
             ⟨url ++ "/Errors", SprintfQ env (st.Errors ++ [m])⟩] := by
  refine ⟨?_, ?_, ?_⟩
  · rw [writeInventory_eq]
    simp [specFailures, specAttempts, Attempt.run]
  · rw [writeInventory_eq]
    simp [specFailures, specAttempts, Attempt.run]
  · intro m a b ha hb htr
    rw [writeInventory_eq]
    simp [postAttribute, postAttributeCompressed, ha, hb, htr, path_eq_iff]

/-- C2 at a sample cycle in which the transport fails only for
`InstalledPackages`. -/
theorem writeInventory_errors_witness :
    (writeInventory (sampleEnv (failFor "base/InstalledPackages" "boom"))
        sampleState "base" []).1.Errors = ["boom"]
    ∧ (writeInventory (sampleEnv (failFor "base/InstalledPackages" "boom"))
        sampleState "base" []).2
      = [⟨"base/Timestamp", "2018-06-01T12:00:00Z"⟩, ⟨"base/Hostname", "host-1"⟩,
         ⟨"base/LongName", "Debian GNU/Linux 9 (stretch)"⟩, ⟨"base/ShortName", "debian"⟩,
         ⟨"base/Version", "9"⟩, ⟨"base/Architecture", "x86_64"⟩,
         ⟨"base/KernelVersion", "4.9.0-6-amd64"⟩,
         ⟨"base/InstalledPackages", "gz(bash 4.4\n)="⟩,
         ⟨"base/PackageUpdates", "gz(curl 7.52\n)="⟩,
         ⟨"base/Errors", "[\"boom\"]"⟩] :=
  (writeInventory_errors (sampleEnv (failFor "base/InstalledPackages" "boom"))
    sampleState "base" []).2.2
    "boom" "gz(bash 4.4\n)=" "gz(curl 7.52\n)=" rfl rfl (fun _ _ => rfl)

/-- C3: the last write of `writeInventory` goes to `base/Errors`, and its
content is `[`, each entry of the error list as it stands after the `Timestamp`
write and the whole field walk (the build-phase errors followed by the
publish-phase failures) between double quotes and escaped, one space between
neighbours, `]`; it is the text `[]` when that list is empty, as it is when the
snapshot has no build-phase error, the transport is healthy and both encodings
succeed. -/
theorem writeInventory_errors_attribute {P : Type} (env : Env P) (st : instanceInventory P)
    (url : String) (w : List Post) :
    (writeInventory env st url w).2.getLast? = some ⟨url ++ "/Errors",
      "[" ++ " ".intercalate
        ((writeInventory env st url w).1.Errors.map (fun s => "\"" ++ env.escape s ++ "\""))
        ++ "]"⟩
    ∧ (writeInventory env st url w).1.Errors
        = st.Errors ++ (specFailures env (specAttempts env st url) w).1
    ∧ ((writeInventory env st url w).1.Errors = [] →
        (writeInventory env st url w).2.getLast? = some ⟨url ++ "/Errors", "[]"⟩)
    ∧ ∀ a b, st.Errors = [] → (∀ h p, env.transport h p = none) →
        encodeCompressed env st.InstalledPackages = .ok a →
        encodeCompressed env st.PackageUpdates = .ok b →
        (writeInventory env st url w).2.getLast? = some ⟨url ++ "/Errors", "[]"⟩ := by
  have hlast : (writeInventory env st url w).2.getLast? = some ⟨url ++ "/Errors",
      SprintfQ env (writeInventory env st url w).1.Errors⟩ := by
    rw [writeInventory_trace, ← List.append_assoc]
    exact List.getLast?_concat _
  refine ⟨hlast, ?_, ?_, ?_⟩
  · rw [writeInventory_eq]
    simp [specFailures, specAttempts, Attempt.run]
  · intro h
    rw [hlast, h]
    rfl
  · intro a b hst htr ha hb
    have h : (writeInventory env st url w).1.Errors = [] := by
      rw [writeInventory_eq]
      simp [postAttribute, postAttributeCompressed, ha, hb, htr, hst]
    rw [hlast, h]
    rfl

/-- C3 at two sample cycles: a healthy one, whose `Errors` attribute is `[]`,
and one with two failures, whose `Errors` attribute lists both. -/
theorem writeInventory_errors_attribute_witness :
    (writeInventory (sampleEnv healthy) sampleState "base" []).2.getLast?
      = some ⟨"base/Errors", "[]"⟩
    ∧ (writeInventory (sampleEnv (failFor "base/Hostname" "boom")) sampleStateNaN
        "base" []).2.getLast?
      = some ⟨"base/Errors", "[\"boom\" \"json: unsupported value: NaN\"]"⟩ :=
  ⟨(writeInventory_errors_attribute (sampleEnv healthy) sampleState "base" []).2.2.2
      "gz(bash 4.4\n)=" "gz(curl 7.52\n)=" rfl (fun _ _ => rfl) rfl rfl,
   (writeInventory_errors_attribute (sampleEnv (failFor "base/Hostname" "boom"))
      sampleStateNaN "base" []).1⟩

/-- C5: the six writes after the `Timestamp` write carry the six string fields,
each under its own name and with the field's own value as the whole content; the
writes after them go to `base/InstalledPackages`, `base/PackageUpdates` or
`base/Errors`; so every write of the call to `base/<name>` of a string field has
that field's value as content. -/
theorem writeInventory_scalars {P : Type} (env : Env P) (st : instanceInventory P)
    (url : String) (w : List Post) :
    ∃ rest, (writeInventory env st url w).2 = w ++
        ([⟨url ++ "/Timestamp", env.now⟩, ⟨url ++ "/Hostname", st.Hostname⟩,
          ⟨url ++ "/LongName", st.LongName⟩, ⟨url ++ "/ShortName", st.ShortName⟩,
          ⟨url ++ "/Version", st.Version⟩, ⟨url ++ "/Architecture", st.Architecture⟩,
          ⟨url ++ "/KernelVersion", st.KernelVersion⟩] ++ rest)
      ∧ (∀ p ∈ rest, p.target = url ++ "/InstalledPackages"
          ∨ p.target = url ++ "/PackageUpdates" ∨ p.target = url ++ "/Errors")
      ∧ ∀ p ∈ (writeInventory env st url w).2.drop w.length,
          (p.target = url ++ "/Hostname" → p.content = st.Hostname)
          ∧ (p.target = url ++ "/LongName" → p.content = st.LongName)
          ∧ (p.target = url ++ "/ShortName" → p.content = st.ShortName)
          ∧ (p.target = url ++ "/Version" → p.content = st.Version)
          ∧ (p.target = url ++ "/Architecture" → p.content = st.Architecture)
          ∧ (p.target = url ++ "/KernelVersion" → p.content = st.KernelVersion) := by
  have hrest : ∀ p ∈ compressedPosts env (url ++ "/InstalledPackages") st.InstalledPackages
      ++ compressedPosts env (url ++ "/PackageUpdates") st.PackageUpdates
      ++ [⟨url ++ "/Errors", SprintfQ env (writeInventory env st url w).1.Errors⟩],
      p.target = url ++ "/InstalledPackages"
          ∨ p.target = url ++ "/PackageUpdates" ∨ p.target = url ++ "/Errors" := by
    intro p hp
    simp only [List.mem_append, List.mem_singleton] at hp
    rcases hp with (hp | hp) | hp
    · exact Or.inl (mem_compressedPosts hp)
    · exact Or.inr (Or.inl (mem_compressedPosts hp))
    · exact Or.inr (Or.inr (by rw [hp]))
  refine ⟨compressedPosts env (url ++ "/InstalledPackages") st.InstalledPackages
    ++ compressedPosts env (url ++ "/PackageUpdates") st.PackageUpdates
    ++ [⟨url ++ "/Errors", SprintfQ env (writeInventory env st url w).1.Errors⟩], ?_, hrest, ?_⟩
  · rw [writeInventory_trace]
    simp only [List.append_assoc]
  · intro p hp
    rw [writeInventory_trace, List.drop_left] at hp
    simp only [List.append_assoc, List.mem_append, List.mem_cons, List.not_mem_nil,
      or_false] at hp
    have hrest2 := hrest p
    simp only [List.append_assoc, List.mem_append, List.mem_cons, List.not_mem_nil,
      or_false] at hrest2
    rcases hp with (hp | hp | hp | hp | hp | hp | hp) | hp
    · subst hp; simp [path_eq_iff]
    · subst hp; simp [path_eq_iff]
    · subst hp; simp [path_eq_iff]
    · subst hp; simp [path_eq_iff]
    · subst hp; simp [path_eq_iff]
    · subst hp; simp [path_eq_iff]
    · subst hp; simp [path_eq_iff]
    · rcases hrest2 hp with h | h | h <;> simp [h, path_eq_iff]

/-- C10: `writeInventory` leaves the eight fields other than `Errors` as they
were, and the `Errors` list before the call is an initial segment of the list
after it. -/
theorem writeInventory_frame {P : Type} (env : Env P) (st : instanceInventory P)
    (url : String) (w : List Post) :
    (writeInventory env st url w).1.Hostname = st.Hostname ∧
    (writeInventory env st url w).1.LongName = st.LongName ∧
    (writeInventory env st url w).1.ShortName = st.ShortName ∧
    (writeInventory env st url w).1.Version = st.Version ∧
    (writeInventory env st url w).1.Architecture = st.Architecture ∧
    (writeInventory env st url w).1.KernelVersion = st.KernelVersion ∧
    (writeInventory env st url w).1.InstalledPackages = st.InstalledPackages ∧
    (writeInventory env st url w).1.PackageUpdates = st.PackageUpdates ∧
    st.Errors <+: (writeInventory env st url w).1.Errors := by
  rw [writeInventory_eq]
  exact ⟨rfl, rfl, rfl, rfl, rfl, rfl, rfl, rfl, ⟨_, rfl⟩⟩

/-! ## The claims about `postAttributeCompressed` -/

theorem encodeCompressed_of_fails {P : Type} {env : Env P} {v : P} {e : String}
    (h : PipelineFails env v e) : encodeCompressed env v = .error e := by
  unfold encodeCompressed
  rcases h with h | ⟨s1, h1, h2⟩ | ⟨s1, s2, h1, h2, h3⟩
  · simp [h]
  · simp [h1, h2]
  · simp [h1, h2, h3]

theorem Field_struct {P : Type} {st : instanceInventory P} {i : Nat} {v : P}
    (h : Field st i = some (.struct v)) :
    (i = 6 ∧ st.InstalledPackages = v) ∨ (i = 7 ∧ st.PackageUpdates = v) := by
  unfold Field at h
  split at h <;> simp_all

theorem encodeCompressed_ok {P : Type} {env : Env P} {v : P} {payload : String}
    (h : encodeCompressed env v = .ok payload) :
    ∃ js z1 o1 b1 p1 o2 b2 p2 p3, env.jsonEncode v = .ok js
      ∧ env.gzip.write env.gzip.init js = .ok (z1, o1)
      ∧ env.base64.write env.base64.init o1 = .ok (b1, p1)
      ∧ env.gzip.close z1 = .ok o2
      ∧ env.base64.write b1 o2 = .ok (b2, p2)
      ∧ env.base64.close b2 = .ok p3
      ∧ payload = p1 ++ p2 ++ p3 := by
  simp only [encodeCompressed, Encode, zwWrite, zwClose, bWrite, bClose] at h
  cases hj : env.jsonEncode v with
  | error e => simp [hj] at h
  | ok js =>
    cases hz : env.gzip.write env.gzip.init js with
    | error e => simp [hj, hz] at h
    | ok r1 =>
      obtain ⟨z1, o1⟩ := r1
      cases hb : env.base64.write env.base64.init o1 with
      | error e => simp [hj, hz, hb] at h
      | ok r2 =>
        obtain ⟨b1, p1⟩ := r2
        cases hc : env.gzip.close z1 with
        | error e => simp [hj, hz, hb, hc] at h
        | ok o2 =>
          cases hb2 : env.base64.write b1 o2 with
          | error e => simp [hj, hz, hb, hc, hb2] at h
          | ok r3 =>
            obtain ⟨b2, p2⟩ := r3
            cases hc2 : env.base64.close b2 with
            | error e => simp [hj, hz, hb, hc, hb2, hc2] at h
            | ok p3 =>
              simp [hj, hz, hb, hc, hb2, hc2] at h
              exact ⟨js, z1, o1, b1, p1, o2, b2, p2, p3, rfl, hz, hb, hc, hb2, hc2, h.symm⟩

theorem sampleGzip_once (x out : String) (h : sampleGzip.finish [x] = .ok out) :
    out = sampleGz x := by
  simp [Filter.finish, Filter.feed, sampleGzip, sampleGz] at h ⊢
  exact h.symm

theorem sampleBase64_feed (chunks : List String) (s : Unit) :
    Filter.feed sampleBase64 s chunks = .ok ((), chunks.foldr (· ++ ·) "") := by
  induction chunks generalizing s with
  | nil => simp [Filter.feed]
  | cons c cs ih =>
    have h := ih ()
    simp only [Filter.feed, sampleBase64] at h ⊢
    simp [h]

theorem sampleBase64_implements : sampleBase64.Implements sampleB64 := by
  intro chunks out h
  have hf := sampleBase64_feed chunks ()
  simp only [Filter.finish] at h
  rw [show sampleBase64.init = () from rfl, hf] at h
  simp [sampleBase64, sampleB64] at h ⊢
  exact h.symm

theorem sampleUngz_gz (x : String) : sampleUngz (sampleGz x) = some x := by
  simp [sampleUngz, sampleGz, String.data_append]

theorem sampleUnb64_b64 (x : String) : sampleUnb64 (sampleB64 x) = some x := by
  simp [sampleUnb64, sampleB64, String.data_append]

theorem sampleJsonDecode_encode (v js : String)
    (h : (sampleEnv healthy).jsonEncode v = .ok js) : sampleJsonDecode js = some v := by
  simp only [sampleEnv] at h
  split at h
  · simp at h
  · simp at h
    subst h
    simp [sampleJsonDecode, String.data_append]

/-- C4: under the contracts of the three libraries (a gzip writer that is
written `x` and closed has emitted `gz x`, the base64 encoder is a streaming form
of the one-shot encoding `b64`, each is undone by its decoder, and the JSON text
of a value parses back to the value), whenever the pipeline of
`postAttributeCompressed` succeeds on `v` the one write it makes carries
`b64 (gz (json v))`, complete, and decoding base64, then gzip, then JSON gives
`v` back. -/
theorem postAttributeCompressed_roundtrip {P : Type} (env : Env P)
    (gz b64 : String → String) (ungz unb64 : String → Option String)
    (jsonDecode : String → Option P)
    (hgz : ∀ x out, env.gzip.finish [x] = .ok out → out = gz x)
    (hb64 : env.base64.Implements b64)
    (hungz : ∀ x, ungz (gz x) = some x) (hunb64 : ∀ x, unb64 (b64 x) = some x)
    (hjson : ∀ v js, env.jsonEncode v = .ok js → jsonDecode js = some v)
    (url : String) (v : P) (w : List Post) (payload : String)
    (henc : encodeCompressed env v = .ok payload) :
    (postAttributeCompressed env url v w).1 = w ++ [⟨url, payload⟩]
    ∧ (∃ js, env.jsonEncode v = .ok js ∧ payload = b64 (gz js))
    ∧ ((unb64 payload).bind ungz).bind jsonDecode = some v := by
  obtain ⟨js, z1, o1, b1, p1, o2, b2, p2, p3, hj, hzw, hbw, hzc, hbw2, hbc, hp⟩ :=
    encodeCompressed_ok henc
  have h1 : o1 ++ o2 = gz js :=
    hgz js (o1 ++ o2) (by simp [Filter.finish, Filter.feed, hzw, hzc])
  have h2 : payload = b64 (gz js) := by
    have := hb64 [o1, o2] (p1 ++ p2 ++ p3)
      (by simp [Filter.finish, Filter.feed, hbw, hbw2, hbc])
    rw [hp, this, ← h1]
    simp
  refine ⟨?_, ⟨js, hj, h2⟩, ?_⟩
  · simp [postAttributeCompressed, henc, postAttribute]
  · rw [h2, hunb64, Option.some_bind, hungz, Option.some_bind]
    exact hjson v js hj

/-- C4 at the sample environment: the payload written for the value `bash 4.4`
and what decoding it gives. -/
theorem postAttributeCompressed_roundtrip_witness :
    (postAttributeCompressed (sampleEnv healthy) "base/InstalledPackages" "bash 4.4" []).1
      = [] ++ [⟨"base/InstalledPackages", "gz(bash 4.4\n)="⟩]
    ∧ (∃ js, (sampleEnv healthy).jsonEncode "bash 4.4" = .ok js
        ∧ "gz(bash 4.4\n)=" = sampleB64 (sampleGz js))
    ∧ ((sampleUnb64 "gz(bash 4.4\n)=").bind sampleUngz).bind sampleJsonDecode
      = some "bash 4.4" :=
  postAttributeCompressed_roundtrip (sampleEnv healthy) sampleGz sampleB64 sampleUngz
    sampleUnb64 sampleJsonDecode sampleGzip_once sampleBase64_implements
    sampleUngz_gz sampleUnb64_b64 sampleJsonDecode_encode
    "base/InstalledPackages" "bash 4.4" [] "gz(bash 4.4\n)=" rfl

/-- C6: when the pipeline of a composite value fails with `e` (`w.Encode`,
`zw.Close` or `b.Close` returns `e`), `postAttributeCompressed` leaves the trace
of writes as it was and returns `e`; the loop of `writeInventory` appends the one
entry `e` to the error log and goes on with the fields that remain; and in a
whole cycle whose `InstalledPackages` value it is, nothing is written to
`base/InstalledPackages`, the log gains `e` once between the failures of the
earlier attempts and that of `PackageUpdates`, and the `PackageUpdates` and
`Errors` writes follow. -/
theorem postAttributeCompressed_encoding_failure {P : Type} (env : Env P) (v : P)
    (e : String) (h : PipelineFails env v e) :
    (∀ url w, postAttributeCompressed env url v w = (w, some e))
    ∧ (∀ url st w i rest, Field st i = some (.struct v) →
        (i :: rest).foldl (walkField env url) (st, w)
          = rest.foldl (walkField env url) ({ st with Errors := st.Errors ++ [e] }, w))
    ∧ (∀ st url w, st.InstalledPackages = v →
        (writeInventory env st url w).2 = w ++
          ([⟨url ++ "/Timestamp", env.now⟩, ⟨url ++ "/Hostname", st.Hostname⟩,
            ⟨url ++ "/LongName", st.LongName⟩, ⟨url ++ "/ShortName", st.ShortName⟩,
            ⟨url ++ "/Version", st.Version⟩, ⟨url ++ "/Architecture", st.Architecture⟩,
            ⟨url ++ "/KernelVersion", st.KernelVersion⟩]
           ++ compressedPosts env (url ++ "/PackageUpdates") st.PackageUpdates
           ++ [⟨url ++ "/Errors", SprintfQ env (writeInventory env st url w).1.Errors⟩])
        ∧ (writeInventory env st url w).1.Errors
          = st.Errors ++ (specFailures env ((specAttempts env st url).take 7) w).1 ++ [e]
            ++ (postAttributeCompressed env (url ++ "/PackageUpdates") st.PackageUpdates
                (specFailures env ((specAttempts env st url).take 7) w).2).2.toList) := by
  have henc := encodeCompressed_of_fails h
  have hpc : ∀ url w, postAttributeCompressed env url v w = (w, some e) := by
    intro url w
    simp [postAttributeCompressed, henc]
  refine ⟨hpc, ?_, ?_⟩
  · intro url st w i rest hf
    rcases Field_struct hf with ⟨hi, hv⟩ | ⟨hi, hv⟩
    · subst hi
      simp [walkField, Field, FieldName, hv, hpc, recordError]
    · subst hi
      simp [walkField, Field, FieldName, hv, hpc, recordError]
  · intro st url w hv
    constructor
    · rw [writeInventory_trace]
      simp [compressedPosts, hv, henc]
    · rw [writeInventory_eq]
      simp [specFailures, specAttempts, Attempt.run, hv, hpc]

/-- C6 at the sample environment, whose JSON encoder rejects `NaN`. -/
theorem postAttributeCompressed_encoding_failure_witness :
    postAttributeCompressed (sampleEnv healthy) "base/InstalledPackages" "NaN" []
      = ([], some "json: unsupported value: NaN")
    ∧ (writeInventory (sampleEnv healthy) sampleStateNaN "base" []).1.Errors
      = ["json: unsupported value: NaN"] :=
  ⟨(postAttributeCompressed_encoding_failure (sampleEnv healthy) "NaN"
      "json: unsupported value: NaN" (Or.inl rfl)).1 "base/InstalledPackages" [],
   ((postAttributeCompressed_encoding_failure (sampleEnv healthy) "NaN"
      "json: unsupported value: NaN" (Or.inl rfl)).2.2 sampleStateNaN "base" [] rfl).2⟩

/-! ## The claims about `getInventory` -/

/-- The snapshot `getInventory` builds, field by field. -/
theorem getInventory_eq {P : Type} [Inhabited P] (c : Collectors P) :
    getInventory c =
      { Hostname := c.Hostname.1
        LongName := c.GetDistributionInfo.1.LongName
        ShortName := c.GetDistributionInfo.1.ShortName
        Version := c.GetDistributionInfo.1.Version
        Architecture := c.GetDistributionInfo.1.Architecture
        KernelVersion := c.GetDistributionInfo.1.Kernel
        InstalledPackages := c.GetInstalledPackages.1
        PackageUpdates := c.GetPackageUpdates.1
        Errors := c.Hostname.2.toList ++ c.GetDistributionInfo.2.toList
          ++ c.GetInstalledPackages.2 ++ c.GetPackageUpdates.2 } := by
  unfold getInventory
  cases c.Hostname.2 <;> cases c.GetDistributionInfo.2 <;>
    cases c.GetInstalledPackages.2 <;> cases c.GetPackageUpdates.2 <;> simp

/-- C7: when the hostname lookup fails with message `m` (`os.Hostname` gives the
empty name with an error) while distro detection and both package collectors
succeed without error strings, the snapshot of `getInventory` has the empty
`Hostname`, the error list `[m]`, and the other fields as collected. -/
theorem getInventory_hostname_failure {P : Type} [Inhabited P] (c : Collectors P) (m : String)
    (hh : c.Hostname = ("", some m)) (hd : c.GetDistributionInfo.2 = none)
    (hi : c.GetInstalledPackages.2 = []) (hu : c.GetPackageUpdates.2 = []) :
    (getInventory c).Hostname = "" ∧ (getInventory c).Errors = [m]
    ∧ (getInventory c).LongName = c.GetDistributionInfo.1.LongName
    ∧ (getInventory c).ShortName = c.GetDistributionInfo.1.ShortName
    ∧ (getInventory c).Version = c.GetDistributionInfo.1.Version
    ∧ (getInventory c).Architecture = c.GetDistributionInfo.1.Architecture
    ∧ (getInventory c).KernelVersion = c.GetDistributionInfo.1.Kernel
    ∧ (getInventory c).InstalledPackages = c.GetInstalledPackages.1
    ∧ (getInventory c).PackageUpdates = c.GetPackageUpdates.1 := by
  rw [getInventory_eq]
  simp [hh, hd, hi, hu]

/-- C7 at the spec's scenario: the lookup fails with `permission denied`. -/
theorem getInventory_hostname_failure_witness :
    (getInventory sampleHostnameFails).Hostname = ""
    ∧ (getInventory sampleHostnameFails).Errors = ["permission denied"]
    ∧ (getInventory sampleHostnameFails).LongName = "Debian GNU/Linux 9 (stretch)"
    ∧ (getInventory sampleHostnameFails).ShortName = "debian"
    ∧ (getInventory sampleHostnameFails).Version = "9"
    ∧ (getInventory sampleHostnameFails).Architecture = "x86_64"
    ∧ (getInventory sampleHostnameFails).KernelVersion = "4.9.0-6-amd64"
    ∧ (getInventory sampleHostnameFails).InstalledPackages = "bash 4.4"
    ∧ (getInventory sampleHostnameFails).PackageUpdates = "curl 7.52" :=
  getInventory_hostname_failure sampleHostnameFails "permission denied" rfl rfl rfl rfl

/-- C8, as the claim states it, fails: distro detection that returns an error
together with the names it had found leaves those names in the snapshot. -/
theorem getInventory_distro_failure_counterexample :
    sampleDistroFails.GetDistributionInfo.2 = some "uname: not permitted"
    ∧ (getInventory sampleDistroFails).Errors = ["uname: not permitted"]
    ∧ (getInventory sampleDistroFails).LongName = "Debian GNU/Linux 9 (stretch)"
    ∧ (getInventory sampleDistroFails).LongName ≠ ""
    ∧ (getInventory sampleDistroFails).ShortName ≠ ""
    ∧ (getInventory sampleDistroFails).Version ≠ "" := by
  decide

/-- C8, amended: whatever distro detection answers, `getInventory` copies the
five distro fields from the record it returned (`LongName`, `ShortName`,
`Version` and `Architecture` from the fields of the same name, `KernelVersion`
from `Kernel`); when it answers with an error, the error string is recorded in
`Errors` as well, after the hostname error if there is one and before the
package error strings. -/
theorem getInventory_distro {P : Type} [Inhabited P] (c : Collectors P) :
    (getInventory c).LongName = c.GetDistributionInfo.1.LongName
    ∧ (getInventory c).ShortName = c.GetDistributionInfo.1.ShortName
    ∧ (getInventory c).Version = c.GetDistributionInfo.1.Version
    ∧ (getInventory c).Architecture = c.GetDistributionInfo.1.Architecture
    ∧ (getInventory c).KernelVersion = c.GetDistributionInfo.1.Kernel
    ∧ (getInventory c).Errors = c.Hostname.2.toList ++ c.GetDistributionInfo.2.toList
        ++ c.GetInstalledPackages.2 ++ c.GetPackageUpdates.2
    ∧ ∀ e, c.GetDistributionInfo.2 = some e → e ∈ (getInventory c).Errors := by
  rw [getInventory_eq]
  refine ⟨rfl, rfl, rfl, rfl, rfl, rfl, ?_⟩
  intro e he
  simp [he]

/-- C9: for every combination of collector outcomes `getInventory` returns a
snapshot in which `Hostname` is what the hostname lookup returned, the five
distro fields are what distro detection returned, `InstalledPackages` and
`PackageUpdates` are what the two enumerations returned; no outcome of another
collector changes them. -/
theorem getInventory_isolation {P : Type} [Inhabited P] (c : Collectors P) :
    (getInventory c).Hostname = c.Hostname.1
    ∧ (getInventory c).LongName = c.GetDistributionInfo.1.LongName
    ∧ (getInventory c).ShortName = c.GetDistributionInfo.1.ShortName
    ∧ (getInventory c).Version = c.GetDistributionInfo.1.Version
    ∧ (getInventory c).Architecture = c.GetDistributionInfo.1.Architecture
    ∧ (getInventory c).KernelVersion = c.GetDistributionInfo.1.Kernel
    ∧ (getInventory c).InstalledPackages = c.GetInstalledPackages.1
    ∧ (getInventory c).PackageUpdates = c.GetPackageUpdates.1 := by
  rw [getInventory_eq]
  exact ⟨rfl, rfl, rfl, rfl, rfl, rfl, rfl, rfl⟩

end OsconfigAgent
